import Mathlib

/-!
Shallow embedding of the provider-routing core of the
smart-summary-insight-service repository
(`src/providers/provider-router.ts`, concatenated into
`src/routes/analyze.routes.ts` in this snapshot, together with
`src/providers/error.ts`).

Modelling conventions:
* Millisecond timestamps (`Date.now()` values and the configured
  durations) are `Int`.
* The JavaScript `Map` objects (`state`, `localQuota`) are association
  lists keyed by the provider name; `mapSet` replaces the value at an
  existing key in place (as `Map.prototype.set` does) and appends
  otherwise.
* The clock advances monotonically during a `route` invocation; the
  loop body samples it once per candidate iteration, so the model takes
  a time oracle `times : Nat → Int` giving the `Date.now()` value seen
  while the candidate at position `i` of the ranked list is processed.
* The outcome of invoking a candidate is external input, modelled by an
  oracle `outcomes : Nat → InvOutcome ρ` indexed by the candidate's
  position in the ranked list (each position is reached at most once).
* Costs are exact rationals; the comparator passed to `Array.sort` is
  `cost a - cost b`, and ES2019 `Array.prototype.sort` is a stable
  sort, modelled by `List.insertionSort` with the reflexive total
  preorder `cost a ≤ cost b`.
* `estimateTokens (buildAnalysisPrompt …)` is an opaque nonnegative
  number as far as routing is concerned; `analyzeData` takes the token
  estimate as a parameter.
-/

/-- Identity of a provider (`ProviderName` in `error.ts` is the string
union `"claude" | "openai" | "deepseek"`; any string is allowed here). -/
abbrev ProviderName := String

/-- Classified provider error (`AIProviderError` in `error.ts`):
provider, optional HTTP status, retryable flag, message. -/
structure AIProviderError where
  provider : ProviderName
  status : Option Int
  retryable : Bool
  message : String
deriving DecidableEq

/-- Raw value thrown by a provider invocation: either an
`AIProviderError` instance (already carrying a structured
status/retryable pair), another `Error` instance (only its `message`
matters to classification), or a non-`Error` value (stringified). -/
inductive RawError where
  | providerError (e : AIProviderError)
  | jsError (message : String)
  | nonError (repr : String)
deriving DecidableEq

/-- Whether the thrown value satisfies `instanceof Error`. -/
def isErrorInst : RawError → Bool
  | .providerError _ => true
  | .jsError _ => true
  | .nonError _ => false

/-- Message extraction: `err instanceof Error ? err.message : String(err)`. -/
def rawMessage : RawError → String
  | .providerError e => e.message
  | .jsError m => m
  | .nonError s => s

/-- Occurrence of `pat` as a contiguous subsequence of `s`
(character-list form of substring matching). -/
def containsSeq (s pat : List Char) : Bool :=
  match s with
  | [] => pat.isEmpty
  | _ :: rest => pat.isPrefixOf s || containsSeq rest pat

/-- Lower-cased character list of a string. -/
def lowerStr (s : String) : List Char :=
  s.toList.map Char.toLower

/-- Lower-casing `String.prototype.toLowerCase` as a string-to-string
function (character-list implementation so that it evaluates by kernel
reduction). -/
def toLowerStr (s : String) : String :=
  String.mk (lowerStr s)

/-- Case-insensitive substring test: `new RegExp(pat, "i").test(s)` for a
literal pattern `pat`. -/
def containsCI (s pat : String) : Bool :=
  containsSeq (lowerStr s) (lowerStr pat)

/-- Test of `/rate limit|429/i` on the message. -/
def looksLikeRateLimit (msg : String) : Bool :=
  containsCI msg "rate limit" || containsCI msg "429"

/-- Test of `/invalid api key|unauthorized|forbidden|401|403/i` on the message. -/
def looksLikeAuth (msg : String) : Bool :=
  containsCI msg "invalid api key" || containsCI msg "unauthorized" ||
    containsCI msg "forbidden" || containsCI msg "401" || containsCI msg "403"

/-- Test of `/payment required|402|insufficient credit|no credit/i` on the message. -/
def looksLikePayment (msg : String) : Bool :=
  containsCI msg "payment required" || containsCI msg "402" ||
    containsCI msg "insufficient credit" || containsCI msg "no credit"

/-- Embedding of `ProviderRouter.toProviderError`: pass an
`AIProviderError` through unchanged, otherwise classify the textual
message. -/
def toProviderError (name : ProviderName) (err : RawError) : AIProviderError :=
  match err with
  | .providerError e => e
  | _ =>
    let msg := rawMessage err
    { provider := name
      message := msg
      status :=
        if looksLikeRateLimit msg then some 429
        else if looksLikeAuth msg then some 401
        else if looksLikePayment msg then some 402
        else none
      retryable := if looksLikeAuth msg || looksLikePayment msg then false else true }

/-- Routed provider descriptor (`RoutedProvider`): name and optional
cost per 1K tokens. The capability handle is implicit — invocation
outcomes come from the oracle passed to `analyzeData`. -/
structure RoutedProvider where
  name : ProviderName
  cost_per_1k : Option ℚ
deriving DecidableEq

/-- Diagnostic record stored by `recordError` (`last_error`); the ISO
time string is modelled by the millisecond timestamp it renders. -/
structure LastError where
  status : Option Int
  message : String
  atMs : Int
deriving DecidableEq

/-- Per-provider health state (`ProviderState`). -/
structure ProviderState where
  cooldown_until_ms : Int
  consecutive_failures : Nat
  disabled_until_ms : Int
  last_error : Option LastError
deriving DecidableEq

/-- Initial health state installed by the constructor. -/
def initHealth : ProviderState :=
  { cooldown_until_ms := 0
    consecutive_failures := 0
    disabled_until_ms := 0
    last_error := none }

/-- Environment-derived configuration of the router (read once at
startup; `strategyRaw` is the raw `AI_PROVIDER_STRATEGY` value, the
empty string when unset). -/
structure RouterConfig where
  rateLimitCooldownMs : Int
  errorCooldownMs : Int
  authDisableMs : Int
  paymentDisableMs : Int
  localQuotaMax : Int
  localQuotaWindowMs : Int
  strategyRaw : String
deriving DecidableEq

/-- Default configuration values from the source. -/
def defaultConfig : RouterConfig :=
  { rateLimitCooldownMs := 60000
    errorCooldownMs := 15000
    authDisableMs := 24 * 60 * 60 * 1000
    paymentDisableMs := 24 * 60 * 60 * 1000
    localQuotaMax := 5
    localQuotaWindowMs := 60000
    strategyRaw := "" }

/-- Association-list lookup standing for `Map.prototype.get`. -/
def mapGet (m : List (String × α)) (k : String) : Option α :=
  match m with
  | [] => none
  | (k1, v) :: rest => if k1 = k then some v else mapGet rest k

/-- Association-list update standing for `Map.prototype.set`: replace
the value at an existing key in place, append otherwise. -/
def mapSet (m : List (String × α)) (k : String) (v : α) : List (String × α) :=
  match m with
  | [] => [(k, v)]
  | (k1, v1) :: rest => if k1 = k then (k, v) :: rest else (k1, v1) :: mapSet rest k v

/-- Mutable state owned by one `ProviderRouter` instance: the health
map and the local-quota timestamp map. -/
structure RouterState where
  state : List (ProviderName × ProviderState)
  localQuota : List (ProviderName × List Int)
deriving DecidableEq

/-- Application of `f` to the health record of `name`, a no-op when the
name is unknown (mirrors the `if (!s) return` guards). -/
def updateHealth (rs : RouterState) (name : ProviderName)
    (f : ProviderState → ProviderState) : RouterState :=
  match mapGet rs.state name with
  | none => rs
  | some s => { rs with state := mapSet rs.state name (f s) }

/-- Embedding of `ProviderRouter.isInCooldown` at clock value `now`. -/
def isInCooldown (rs : RouterState) (name : ProviderName) (now : Int) : Bool :=
  match mapGet rs.state name with
  | none => false
  | some s => decide (now < s.cooldown_until_ms)

/-- Embedding of `ProviderRouter.cooldown`: raise the cooldown deadline
to `max` of the old deadline and `now + ms`. -/
def cooldown (rs : RouterState) (name : ProviderName) (now ms : Int) : RouterState :=
  updateHealth rs name fun s =>
    { s with cooldown_until_ms := max s.cooldown_until_ms (now + ms) }

/-- Embedding of `ProviderRouter.isDisabled` at clock value `now`. -/
def isDisabled (rs : RouterState) (name : ProviderName) (now : Int) : Bool :=
  match mapGet rs.state name with
  | none => false
  | some s => decide (now < s.disabled_until_ms)

/-- Embedding of `ProviderRouter.disable`: raise the disable deadline
to `max` of the old deadline and `now + ms`. -/
def disable (rs : RouterState) (name : ProviderName) (now ms : Int) : RouterState :=
  updateHealth rs name fun s =>
    { s with disabled_until_ms := max s.disabled_until_ms (now + ms) }

/-- Embedding of `ProviderRouter.markSuccess`: reset the failure
counter and the cooldown deadline, keep `disabled_until_ms` as is. -/
def markSuccess (rs : RouterState) (name : ProviderName) : RouterState :=
  updateHealth rs name fun s =>
    { s with consecutive_failures := 0, cooldown_until_ms := 0 }

/-- Embedding of `ProviderRouter.markFailure`: increment the
consecutive-failure counter. -/
def markFailure (rs : RouterState) (name : ProviderName) : RouterState :=
  updateHealth rs name fun s =>
    { s with consecutive_failures := s.consecutive_failures + 1 }

/-- Embedding of `ProviderRouter.recordError`: store the classified
failure as `last_error` with the current time. -/
def recordError (rs : RouterState) (name : ProviderName) (err : AIProviderError)
    (now : Int) : RouterState :=
  updateHealth rs name fun s =>
    { s with last_error := some { status := err.status, message := err.message, atMs := now } }

/-- Core of `checkAndConsumeLocalQuota` on one timestamp list: drop
timestamps older than `now - W`; if at least `maxN` remain, reject
without appending; otherwise append `now` and accept. -/
def tryConsume (maxN W : Int) (arr : List Int) (now : Int) : Bool × List Int :=
  let fresh := arr.filter fun t => decide (now - W ≤ t)
  if (fresh.length : Int) ≥ maxN then (false, fresh) else (true, fresh ++ [now])

/-- Embedding of `ProviderRouter.checkAndConsumeLocalQuota`: run
`tryConsume` on the provider's timestamp list (`… || []`) and store the
updated list back into the quota map. -/
def checkAndConsumeLocalQuota (cfg : RouterConfig) (rs : RouterState)
    (name : ProviderName) (now : Int) : Bool × RouterState :=
  let arr := (mapGet rs.localQuota name).getD []
  let r := tryConsume cfg.localQuotaMax cfg.localQuotaWindowMs arr now
  (r.1, { rs with localQuota := mapSet rs.localQuota name r.2 })

/-- Embedding of `ProviderRouter.estimateCostUsd`: `(tokens/1000) *
(cost_per_1k ?? 0)`. -/
def estimateCostUsd (p : RoutedProvider) (tokens : ℚ) : ℚ :=
  (tokens / 1000) * p.cost_per_1k.getD 0

/-- Effective strategy string:
`(process.env.AI_PROVIDER_STRATEGY || "cost_then_failover").toLowerCase()`. -/
def effectiveStrategy (raw : String) : String :=
  toLowerStr (if raw.isEmpty then "cost_then_failover" else raw)

/-- Comparison relation induced by the sort comparator
`(a, b) => estimateCostUsd a - estimateCostUsd b`: `a` may come before
`b` iff its estimated cost is no larger. -/
def costLE (tok : ℚ) (a b : RoutedProvider) : Prop :=
  estimateCostUsd a tok ≤ estimateCostUsd b tok

instance (tok : ℚ) : DecidableRel (costLE tok) :=
  fun a b => inferInstanceAs (Decidable (estimateCostUsd a tok ≤ estimateCostUsd b tok))

/-- Embedding of `ProviderRouter.rankProviders`: copy of the
registration list under `fixed_order`, otherwise a stable ascending
sort by estimated cost (ES2019 `Array.prototype.sort` is a stable
sort, modelled by insertion sort with the total preorder `costLE`). -/
def rankProviders (cfg : RouterConfig) (providers : List RoutedProvider)
    (estTokens : ℚ) : List RoutedProvider :=
  if effectiveStrategy cfg.strategyRaw = "fixed_order" then providers
  else List.insertionSort (costLE estTokens) providers

/-- Outcome of one provider invocation, as seen by the router. -/
inductive InvOutcome (ρ : Type) where
  | success (result : ρ)
  | failure (err : RawError)
deriving DecidableEq

/-- Value a `route` invocation terminates with: a successful result, or
one of the three distinct throw sites of `analyzeData` — the
non-retryable classified error (`throw mapped`), the rethrown raw last
error (`throw lastErr`), or the generic terminal
`Error("All AI providers failed")`. -/
inductive RouteResult (ρ : Type) where
  | ok (result : ρ)
  | thrownMapped (e : AIProviderError)
  | thrownLast (e : RawError)
  | thrownAllFailed
deriving DecidableEq

/-- Observable event of one loop iteration, carrying the candidate
position, its name, the router state and clock value at the iteration's
eligibility check. -/
inductive RouteEvent (ρ : Type) where
  | skipped (i : Nat) (name : ProviderName) (pre : RouterState) (now : Int)
  | quotaRejected (i : Nat) (name : ProviderName) (pre : RouterState) (now : Int)
  | invoked (i : Nat) (name : ProviderName) (pre : RouterState) (now : Int)
      (outcome : InvOutcome ρ)
deriving DecidableEq

/-- Candidate position of an event. -/
def evIdx : RouteEvent ρ → Nat
  | .skipped i _ _ _ => i
  | .quotaRejected i _ _ _ => i
  | .invoked i _ _ _ _ => i

/-- Embedding of the failover loop of `ProviderRouter.analyzeData`,
returning the terminal result, the final router state, and the trace of
per-candidate events. `i` is the position within the ranked candidate
list, `lastErr` the raw error of the most recent failed invocation. -/
def routeLoop (cfg : RouterConfig) (times : Nat → Int) (outcomes : Nat → InvOutcome ρ) :
    List RoutedProvider → Nat → RouterState → Option RawError →
      RouteResult ρ × RouterState × List (RouteEvent ρ)
  | [], _, rs, lastErr =>
    (match lastErr with
     | some e => if isErrorInst e then .thrownLast e else .thrownAllFailed
     | none => .thrownAllFailed, rs, [])
  | c :: rest, i, rs, lastErr =>
    let now := times i
    if isDisabled rs c.name now || isInCooldown rs c.name now then
      let r := routeLoop cfg times outcomes rest (i + 1) rs lastErr
      (r.1, r.2.1, .skipped i c.name rs now :: r.2.2)
    else
      let q := checkAndConsumeLocalQuota cfg rs c.name now
      if q.1 = false then
        let rs2 := cooldown q.2 c.name now cfg.rateLimitCooldownMs
        let r := routeLoop cfg times outcomes rest (i + 1) rs2 lastErr
        (r.1, r.2.1, .quotaRejected i c.name rs now :: r.2.2)
      else
        match outcomes i with
        | .success res => (.ok res, markSuccess q.2 c.name, [.invoked i c.name rs now (.success res)])
        | .failure e =>
          let mapped := toProviderError c.name e
          let rs2 := recordError q.2 c.name mapped now
          if mapped.status = some 401 ∨ mapped.status = some 403 then
            let rs3 := markFailure (disable rs2 c.name now cfg.authDisableMs) c.name
            let r := routeLoop cfg times outcomes rest (i + 1) rs3 (some e)
            (r.1, r.2.1, .invoked i c.name rs now (.failure e) :: r.2.2)
          else if mapped.status = some 402 then
            let rs3 := markFailure (disable rs2 c.name now cfg.paymentDisableMs) c.name
            let r := routeLoop cfg times outcomes rest (i + 1) rs3 (some e)
            (r.1, r.2.1, .invoked i c.name rs now (.failure e) :: r.2.2)
          else if mapped.status = some 429 then
            let rs3 := markFailure (cooldown rs2 c.name now cfg.rateLimitCooldownMs) c.name
            let r := routeLoop cfg times outcomes rest (i + 1) rs3 (some e)
            (r.1, r.2.1, .invoked i c.name rs now (.failure e) :: r.2.2)
          else if mapped.retryable then
            let rs3 := markFailure (cooldown rs2 c.name now cfg.errorCooldownMs) c.name
            let r := routeLoop cfg times outcomes rest (i + 1) rs3 (some e)
            (r.1, r.2.1, .invoked i c.name rs now (.failure e) :: r.2.2)
          else
            (.thrownMapped mapped, rs2, [.invoked i c.name rs now (.failure e)])

/-- Embedding of `ProviderRouter.analyzeData`: rank the registered
providers by the token estimate and run the failover loop from an empty
last error. -/
def analyzeData (cfg : RouterConfig) (providers : List RoutedProvider) (estTokens : ℚ)
    (times : Nat → Int) (outcomes : Nat → InvOutcome ρ) (rs : RouterState) :
    RouteResult ρ × RouterState × List (RouteEvent ρ) :=
  routeLoop cfg times outcomes (rankProviders cfg providers estTokens) 0 rs none

/-- One step of the constructor's `forEach`: install the initial health
state and an empty quota list for provider `p`. -/
def initStep (rs : RouterState) (p : RoutedProvider) : RouterState :=
  { state := mapSet rs.state p.name initHealth
    localQuota := mapSet rs.localQuota p.name [] }

/-- Embedding of the `ProviderRouter` constructor: reject an empty
provider list, otherwise install the initial health state and an empty
quota list for every provider. -/
def mkRouter (providers : List RoutedProvider) : Except String RouterState :=
  if providers.isEmpty then .error "ProviderRouter requires at least one provider"
  else .ok (providers.foldl initStep { state := [], localQuota := [] })

/-! ### Association-list map lemmas -/

theorem mapGet_mapSet_self (m : List (String × α)) (k : String) (v : α) :
    mapGet (mapSet m k v) k = some v := by
  induction m with
  | nil => simp [mapGet, mapSet]
  | cons p rest ih =>
    by_cases h : p.1 = k
    · simp [mapGet, mapSet, h]
    · simp [mapGet, mapSet, h, ih]

theorem mapGet_mapSet_ne (m : List (String × α)) (k k2 : String) (v : α)
    (h : k2 ≠ k) : mapGet (mapSet m k v) k2 = mapGet m k2 := by
  have hk : ¬(k = k2) := fun he => h he.symm
  induction m with
  | nil => simp [mapGet, mapSet, hk]
  | cons p rest ih =>
    by_cases hp : p.1 = k
    · have hp2 : ¬(p.1 = k2) := by rw [hp]; exact hk
      simp [mapGet, mapSet, hp, hk, hp2]
    · simp [mapGet, mapSet, hp, ih]

theorem mapGet_updateHealth_self (rs : RouterState) (n : ProviderName)
    (f : ProviderState → ProviderState) :
    mapGet (updateHealth rs n f).state n = (mapGet rs.state n).map f := by
  unfold updateHealth
  cases h : mapGet rs.state n with
  | none => simp [h]
  | some s => simp [h, mapGet_mapSet_self]

theorem mapGet_updateHealth_ne (rs : RouterState) (n n2 : ProviderName)
    (f : ProviderState → ProviderState) (h : n2 ≠ n) :
    mapGet (updateHealth rs n f).state n2 = mapGet rs.state n2 := by
  unfold updateHealth
  cases hs : mapGet rs.state n with
  | none => rfl
  | some s => simp [mapGet_mapSet_ne _ _ _ _ h]

theorem updateHealth_localQuota (rs : RouterState) (n : ProviderName)
    (f : ProviderState → ProviderState) :
    (updateHealth rs n f).localQuota = rs.localQuota := by
  unfold updateHealth
  cases hs : mapGet rs.state n <;> rfl

/-! ### Quota window lemmas -/

/-- Folding a sequence of `tryConsume` calls over one provider's
timestamp list, counting accepted admissions. -/
def quotaFold (maxN W : Int) (arr : List Int) (calls : List Int) : Nat × List Int :=
  match calls with
  | [] => (0, arr)
  | t :: rest =>
    let r := tryConsume maxN W arr t
    let r2 := quotaFold maxN W r.2 rest
    ((if r.1 then 1 else 0) + r2.1, r2.2)

theorem filter_window_eq_self (W t0 now : Int) (arr : List Int)
    (h1 : ∀ a ∈ arr, t0 ≤ a) (h2 : now < t0 + W) :
    (arr.filter fun t => decide (now - W ≤ t)) = arr := by
  rw [List.filter_eq_self]
  intro a ha
  have := h1 a ha
  simp only [decide_eq_true_eq]
  omega

theorem quotaFold_count (maxN W : Int) (calls : List Int) (arr : List Int) (t0 : Int)
    (h1 : ∀ a ∈ arr, t0 ≤ a) (h2 : ∀ t ∈ calls, t0 ≤ t ∧ t < t0 + W) :
    (quotaFold maxN W arr calls).1 = min calls.length (maxN - arr.length).toNat := by
  induction calls generalizing arr with
  | nil => simp [quotaFold]
  | cons t rest ih =>
    have ht := h2 t (List.mem_cons_self t rest)
    have hfil : (arr.filter fun x => decide (t - W ≤ x)) = arr :=
      filter_window_eq_self W t0 t arr h1 ht.2
    by_cases hlen : (arr.length : Int) ≥ maxN
    · have hrec := ih arr h1 (fun x hx => h2 x (List.mem_cons_of_mem _ hx))
      simp only [quotaFold, tryConsume, hfil, if_pos hlen]
      simp [hrec]
      omega
    · have h1a : ∀ a ∈ arr ++ [t], t0 ≤ a := by
        intro a ha
        rcases List.mem_append.mp ha with hmem | hmem
        · exact h1 a hmem
        · have : a = t := List.mem_singleton.mp hmem
          omega
      have hrec := ih (arr ++ [t]) h1a (fun x hx => h2 x (List.mem_cons_of_mem _ hx))
      simp only [quotaFold, tryConsume, hfil, if_neg hlen]
      simp [hrec]
      omega

/-! ### Loop step lemmas -/

theorem routeLoop_skip_step (cfg : RouterConfig) (times : Nat → Int)
    (outcomes : Nat → InvOutcome ρ) (c : RoutedProvider) (rest : List RoutedProvider)
    (i : Nat) (rs : RouterState) (le : Option RawError)
    (h : (isDisabled rs c.name (times i) || isInCooldown rs c.name (times i)) = true) :
    routeLoop cfg times outcomes (c :: rest) i rs le =
      (let r := routeLoop cfg times outcomes rest (i + 1) rs le
       (r.1, r.2.1, .skipped i c.name rs (times i) :: r.2.2)) := by
  simp only [routeLoop]
  rw [if_pos h]

theorem routeLoop_quota_step (cfg : RouterConfig) (times : Nat → Int)
    (outcomes : Nat → InvOutcome ρ) (c : RoutedProvider) (rest : List RoutedProvider)
    (i : Nat) (rs : RouterState) (le : Option RawError)
    (hd : isDisabled rs c.name (times i) = false)
    (hc : isInCooldown rs c.name (times i) = false)
    (hq : (checkAndConsumeLocalQuota cfg rs c.name (times i)).1 = false) :
    routeLoop cfg times outcomes (c :: rest) i rs le =
      (let rs2 := cooldown (checkAndConsumeLocalQuota cfg rs c.name (times i)).2 c.name
        (times i) cfg.rateLimitCooldownMs
       let r := routeLoop cfg times outcomes rest (i + 1) rs2 le
       (r.1, r.2.1, .quotaRejected i c.name rs (times i) :: r.2.2)) := by
  simp only [routeLoop, hd, hc, hq]
  simp

theorem routeLoop_success_step (cfg : RouterConfig) (times : Nat → Int)
    (outcomes : Nat → InvOutcome ρ) (c : RoutedProvider) (rest : List RoutedProvider)
    (i : Nat) (rs : RouterState) (le : Option RawError) (res : ρ)
    (hd : isDisabled rs c.name (times i) = false)
    (hc : isInCooldown rs c.name (times i) = false)
    (hq : (checkAndConsumeLocalQuota cfg rs c.name (times i)).1 = true)
    (ho : outcomes i = .success res) :
    routeLoop cfg times outcomes (c :: rest) i rs le =
      (.ok res, markSuccess (checkAndConsumeLocalQuota cfg rs c.name (times i)).2 c.name,
        [.invoked i c.name rs (times i) (.success res)]) := by
  simp only [routeLoop, hd, hc, hq, ho]
  simp

theorem routeLoop_fail_auth_step (cfg : RouterConfig) (times : Nat → Int)
    (outcomes : Nat → InvOutcome ρ) (c : RoutedProvider) (rest : List RoutedProvider)
    (i : Nat) (rs : RouterState) (le : Option RawError) (e : RawError)
    (hd : isDisabled rs c.name (times i) = false)
    (hc : isInCooldown rs c.name (times i) = false)
    (hq : (checkAndConsumeLocalQuota cfg rs c.name (times i)).1 = true)
    (ho : outcomes i = .failure e)
    (hst : (toProviderError c.name e).status = some 401 ∨
      (toProviderError c.name e).status = some 403) :
    routeLoop cfg times outcomes (c :: rest) i rs le =
      (let rs2 := recordError (checkAndConsumeLocalQuota cfg rs c.name (times i)).2 c.name
        (toProviderError c.name e) (times i)
       let rs3 := markFailure (disable rs2 c.name (times i) cfg.authDisableMs) c.name
       let r := routeLoop cfg times outcomes rest (i + 1) rs3 (some e)
       (r.1, r.2.1, .invoked i c.name rs (times i) (.failure e) :: r.2.2)) := by
  simp only [routeLoop, hd, hc, hq, ho]
  rw [if_pos hst]
  simp

theorem routeLoop_fail_payment_step (cfg : RouterConfig) (times : Nat → Int)
    (outcomes : Nat → InvOutcome ρ) (c : RoutedProvider) (rest : List RoutedProvider)
    (i : Nat) (rs : RouterState) (le : Option RawError) (e : RawError)
    (hd : isDisabled rs c.name (times i) = false)
    (hc : isInCooldown rs c.name (times i) = false)
    (hq : (checkAndConsumeLocalQuota cfg rs c.name (times i)).1 = true)
    (ho : outcomes i = .failure e)
    (hst : ¬((toProviderError c.name e).status = some 401 ∨
      (toProviderError c.name e).status = some 403))
    (hst2 : (toProviderError c.name e).status = some 402) :
    routeLoop cfg times outcomes (c :: rest) i rs le =
      (let rs2 := recordError (checkAndConsumeLocalQuota cfg rs c.name (times i)).2 c.name
        (toProviderError c.name e) (times i)
       let rs3 := markFailure (disable rs2 c.name (times i) cfg.paymentDisableMs) c.name
       let r := routeLoop cfg times outcomes rest (i + 1) rs3 (some e)
       (r.1, r.2.1, .invoked i c.name rs (times i) (.failure e) :: r.2.2)) := by
  simp only [routeLoop, hd, hc, hq, ho]
  rw [if_neg hst, if_pos hst2]
  simp

theorem routeLoop_fail_rateLimit_step (cfg : RouterConfig) (times : Nat → Int)
    (outcomes : Nat → InvOutcome ρ) (c : RoutedProvider) (rest : List RoutedProvider)
    (i : Nat) (rs : RouterState) (le : Option RawError) (e : RawError)
    (hd : isDisabled rs c.name (times i) = false)
    (hc : isInCooldown rs c.name (times i) = false)
    (hq : (checkAndConsumeLocalQuota cfg rs c.name (times i)).1 = true)
    (ho : outcomes i = .failure e)
    (hst : ¬((toProviderError c.name e).status = some 401 ∨
      (toProviderError c.name e).status = some 403))
    (hst2 : ¬(toProviderError c.name e).status = some 402)
    (hst3 : (toProviderError c.name e).status = some 429) :
    routeLoop cfg times outcomes (c :: rest) i rs le =
      (let rs2 := recordError (checkAndConsumeLocalQuota cfg rs c.name (times i)).2 c.name
        (toProviderError c.name e) (times i)
       let rs3 := markFailure (cooldown rs2 c.name (times i) cfg.rateLimitCooldownMs) c.name
       let r := routeLoop cfg times outcomes rest (i + 1) rs3 (some e)
       (r.1, r.2.1, .invoked i c.name rs (times i) (.failure e) :: r.2.2)) := by
  simp only [routeLoop, hd, hc, hq, ho]
  rw [if_neg hst, if_neg hst2, if_pos hst3]
  simp

theorem routeLoop_fail_retryable_step (cfg : RouterConfig) (times : Nat → Int)
    (outcomes : Nat → InvOutcome ρ) (c : RoutedProvider) (rest : List RoutedProvider)
    (i : Nat) (rs : RouterState) (le : Option RawError) (e : RawError)
    (hd : isDisabled rs c.name (times i) = false)
    (hc : isInCooldown rs c.name (times i) = false)
    (hq : (checkAndConsumeLocalQuota cfg rs c.name (times i)).1 = true)
    (ho : outcomes i = .failure e)
    (hst : ¬((toProviderError c.name e).status = some 401 ∨
      (toProviderError c.name e).status = some 403))
    (hst2 : ¬(toProviderError c.name e).status = some 402)
    (hst3 : ¬(toProviderError c.name e).status = some 429)
    (hr : (toProviderError c.name e).retryable = true) :
    routeLoop cfg times outcomes (c :: rest) i rs le =
      (let rs2 := recordError (checkAndConsumeLocalQuota cfg rs c.name (times i)).2 c.name
        (toProviderError c.name e) (times i)
       let rs3 := markFailure (cooldown rs2 c.name (times i) cfg.errorCooldownMs) c.name
       let r := routeLoop cfg times outcomes rest (i + 1) rs3 (some e)
       (r.1, r.2.1, .invoked i c.name rs (times i) (.failure e) :: r.2.2)) := by
  simp only [routeLoop, hd, hc, hq, ho]
  rw [if_neg hst, if_neg hst2, if_neg hst3, if_pos hr]
  simp

theorem routeLoop_fail_abort_step (cfg : RouterConfig) (times : Nat → Int)
    (outcomes : Nat → InvOutcome ρ) (c : RoutedProvider) (rest : List RoutedProvider)
    (i : Nat) (rs : RouterState) (le : Option RawError) (e : RawError)
    (hd : isDisabled rs c.name (times i) = false)
    (hc : isInCooldown rs c.name (times i) = false)
    (hq : (checkAndConsumeLocalQuota cfg rs c.name (times i)).1 = true)
    (ho : outcomes i = .failure e)
    (hst : ¬((toProviderError c.name e).status = some 401 ∨
      (toProviderError c.name e).status = some 403))
    (hst2 : ¬(toProviderError c.name e).status = some 402)
    (hst3 : ¬(toProviderError c.name e).status = some 429)
    (hr : (toProviderError c.name e).retryable = false) :
    routeLoop cfg times outcomes (c :: rest) i rs le =
      (.thrownMapped (toProviderError c.name e),
        recordError (checkAndConsumeLocalQuota cfg rs c.name (times i)).2 c.name
          (toProviderError c.name e) (times i),
        [.invoked i c.name rs (times i) (.failure e)]) := by
  simp only [routeLoop, hd, hc, hq, ho]
  rw [if_neg hst, if_neg hst2, if_neg hst3, if_neg (by simp [hr])]
  simp [hr]

/-! ### Trace lemmas -/

/-- Provider name of an event. -/
def evName : RouteEvent ρ → ProviderName
  | .skipped _ n _ _ => n
  | .quotaRejected _ n _ _ => n
  | .invoked _ n _ _ _ => n

theorem routeLoop_trace_cases (cfg : RouterConfig) (times : Nat → Int)
    (outcomes : Nat → InvOutcome ρ) (c : RoutedProvider) (rest : List RoutedProvider)
    (i : Nat) (rs : RouterState) (le : Option RawError) :
    ∃ ev, evName ev = c.name ∧ evIdx ev = i ∧
      (∀ j n pre now outc, ev = RouteEvent.invoked j n pre now outc →
        pre = rs ∧ now = times i ∧
        isDisabled rs c.name (times i) = false ∧ isInCooldown rs c.name (times i) = false) ∧
      ((routeLoop cfg times outcomes (c :: rest) i rs le).2.2 = [ev] ∨
        ∃ rs2 le2, (routeLoop cfg times outcomes (c :: rest) i rs le).2.2 =
          ev :: (routeLoop cfg times outcomes rest (i + 1) rs2 le2).2.2) := by
  by_cases hgate : (isDisabled rs c.name (times i) || isInCooldown rs c.name (times i)) = true
  · refine ⟨.skipped i c.name rs (times i), rfl, rfl, ?_, .inr ⟨rs, le, ?_⟩⟩
    · intro j n pre now outc h
      cases h
    · rw [routeLoop_skip_step cfg times outcomes c rest i rs le hgate]
  · have hd : isDisabled rs c.name (times i) = false := by
      rcases Bool.or_eq_false_iff.mp (Bool.not_eq_true _ |>.mp hgate) with ⟨h1, h2⟩
      exact h1
    have hc : isInCooldown rs c.name (times i) = false := by
      rcases Bool.or_eq_false_iff.mp (Bool.not_eq_true _ |>.mp hgate) with ⟨h1, h2⟩
      exact h2
    by_cases hq : (checkAndConsumeLocalQuota cfg rs c.name (times i)).1 = false
    · refine ⟨.quotaRejected i c.name rs (times i), rfl, rfl, ?_,
        .inr ⟨cooldown (checkAndConsumeLocalQuota cfg rs c.name (times i)).2 c.name
          (times i) cfg.rateLimitCooldownMs, le, ?_⟩⟩
      · intro j n pre now outc h
        cases h
      · rw [routeLoop_quota_step cfg times outcomes c rest i rs le hd hc hq]
    · have hq2 : (checkAndConsumeLocalQuota cfg rs c.name (times i)).1 = true :=
        Bool.not_eq_false _ |>.mp hq
      cases ho : outcomes i with
      | success res =>
        refine ⟨.invoked i c.name rs (times i) (.success res), rfl, rfl, ?_, .inl ?_⟩
        · intro j n pre now outc h
          cases h
          exact ⟨rfl, rfl, hd, hc⟩
        · rw [routeLoop_success_step cfg times outcomes c rest i rs le res hd hc hq2 ho]
      | failure e =>
        refine ⟨.invoked i c.name rs (times i) (.failure e), rfl, rfl, ?_, ?_⟩
        · intro j n pre now outc h
          cases h
          exact ⟨rfl, rfl, hd, hc⟩
        · by_cases hst : (toProviderError c.name e).status = some 401 ∨
            (toProviderError c.name e).status = some 403
          · refine .inr ⟨markFailure (disable (recordError
              (checkAndConsumeLocalQuota cfg rs c.name (times i)).2 c.name
              (toProviderError c.name e) (times i)) c.name (times i) cfg.authDisableMs) c.name,
              some e, ?_⟩
            rw [routeLoop_fail_auth_step cfg times outcomes c rest i rs le e hd hc hq2 ho hst]
          · by_cases hst2 : (toProviderError c.name e).status = some 402
            · refine .inr ⟨markFailure (disable (recordError
                (checkAndConsumeLocalQuota cfg rs c.name (times i)).2 c.name
                (toProviderError c.name e) (times i)) c.name (times i) cfg.paymentDisableMs)
                c.name, some e, ?_⟩
              rw [routeLoop_fail_payment_step cfg times outcomes c rest i rs le e hd hc hq2 ho
                hst hst2]
            · by_cases hst3 : (toProviderError c.name e).status = some 429
              · refine .inr ⟨markFailure (cooldown (recordError
                  (checkAndConsumeLocalQuota cfg rs c.name (times i)).2 c.name
                  (toProviderError c.name e) (times i)) c.name (times i)
                  cfg.rateLimitCooldownMs) c.name, some e, ?_⟩
                rw [routeLoop_fail_rateLimit_step cfg times outcomes c rest i rs le e hd hc hq2
                  ho hst hst2 hst3]
              · by_cases hr : (toProviderError c.name e).retryable = true
                · refine .inr ⟨markFailure (cooldown (recordError
                    (checkAndConsumeLocalQuota cfg rs c.name (times i)).2 c.name
                    (toProviderError c.name e) (times i)) c.name (times i)
                    cfg.errorCooldownMs) c.name, some e, ?_⟩
                  rw [routeLoop_fail_retryable_step cfg times outcomes c rest i rs le e hd hc
                    hq2 ho hst hst2 hst3 hr]
                · have hr2 : (toProviderError c.name e).retryable = false :=
                    Bool.not_eq_true _ |>.mp hr
                  exact .inl (by
                    rw [routeLoop_fail_abort_step cfg times outcomes c rest i rs le e hd hc hq2
                      ho hst hst2 hst3 hr2])

theorem routeLoop_trace_nil (cfg : RouterConfig) (times : Nat → Int)
    (outcomes : Nat → InvOutcome ρ) (i : Nat) (rs : RouterState) (le : Option RawError) :
    (routeLoop cfg times outcomes [] i rs le).2.2 = [] := rfl

theorem routeLoop_trace_bound (cfg : RouterConfig) (times : Nat → Int)
    (outcomes : Nat → InvOutcome ρ) (cands : List RoutedProvider) :
    ∀ (i : Nat) (rs : RouterState) (le : Option RawError),
      (∀ ev ∈ (routeLoop cfg times outcomes cands i rs le).2.2, i ≤ evIdx ev) ∧
        List.Pairwise (fun a b => evIdx a < evIdx b)
          (routeLoop cfg times outcomes cands i rs le).2.2 := by
  induction cands with
  | nil =>
    intro i rs le
    rw [routeLoop_trace_nil]
    exact ⟨fun ev hev => absurd hev (List.not_mem_nil ev), List.Pairwise.nil⟩
  | cons c rest ih =>
    intro i rs le
    obtain ⟨ev, hname, hidx, hinv, hcase⟩ := routeLoop_trace_cases cfg times outcomes c rest i rs le
    rcases hcase with h1 | ⟨rs2, le2, h2⟩
    · rw [h1]
      refine ⟨?_, List.pairwise_singleton _ _⟩
      intro x hx
      rcases List.mem_singleton.mp hx with rfl
      omega
    · rw [h2]
      obtain ⟨ihb, ihp⟩ := ih (i + 1) rs2 le2
      refine ⟨?_, ?_⟩
      · intro x hx
        rcases List.mem_cons.mp hx with rfl | hx2
        · omega
        · have := ihb x hx2
          omega
      · refine List.Pairwise.cons ?_ ihp
        intro b hb
        have := ihb b hb
        omega

theorem routeLoop_invoked_eligible (cfg : RouterConfig) (times : Nat → Int)
    (outcomes : Nat → InvOutcome ρ) (cands : List RoutedProvider) :
    ∀ (i : Nat) (rs : RouterState) (le : Option RawError) (j : Nat) (n : ProviderName)
      (pre : RouterState) (now : Int) (outc : InvOutcome ρ),
      RouteEvent.invoked j n pre now outc ∈ (routeLoop cfg times outcomes cands i rs le).2.2 →
      isDisabled pre n now = false ∧ isInCooldown pre n now = false := by
  induction cands with
  | nil =>
    intro i rs le j n pre now outc hmem
    rw [routeLoop_trace_nil] at hmem
    exact absurd hmem (List.not_mem_nil _)
  | cons c rest ih =>
    intro i rs le j n pre now outc hmem
    obtain ⟨ev, hname, hidx, hinv, hcase⟩ := routeLoop_trace_cases cfg times outcomes c rest i rs le
    rcases hcase with h1 | ⟨rs2, le2, h2⟩
    · rw [h1] at hmem
      rcases List.mem_singleton.mp hmem with rfl
      obtain ⟨hpre, hnow, helig1, helig2⟩ := hinv j n pre now outc rfl
      have hn : n = c.name := by
        simpa [evName] using hname
      subst hpre hnow hn
      exact ⟨helig1, helig2⟩
    · rw [h2] at hmem
      rcases List.mem_cons.mp hmem with rfl | hmem2
      · obtain ⟨hpre, hnow, helig1, helig2⟩ := hinv j n pre now outc rfl
        have hn : n = c.name := by
          simpa [evName] using hname
        subst hpre hnow hn
        exact ⟨helig1, helig2⟩
      · exact ih (i + 1) rs2 le2 j n pre now outc hmem2

theorem routeLoop_invoked_name (cfg : RouterConfig) (times : Nat → Int)
    (outcomes : Nat → InvOutcome ρ) (cands : List RoutedProvider) :
    ∀ (i : Nat) (rs : RouterState) (le : Option RawError) (j : Nat) (n : ProviderName)
      (pre : RouterState) (now : Int) (outc : InvOutcome ρ),
      RouteEvent.invoked j n pre now outc ∈ (routeLoop cfg times outcomes cands i rs le).2.2 →
      ∃ k, ∃ hk : k < cands.length, j = i + k ∧ (cands.get ⟨k, hk⟩).name = n := by
  induction cands with
  | nil =>
    intro i rs le j n pre now outc hmem
    rw [routeLoop_trace_nil] at hmem
    exact absurd hmem (List.not_mem_nil _)
  | cons c rest ih =>
    intro i rs le j n pre now outc hmem
    obtain ⟨ev, hname, hidx, hinv, hcase⟩ := routeLoop_trace_cases cfg times outcomes c rest i rs le
    rcases hcase with h1 | ⟨rs2, le2, h2⟩
    · rw [h1] at hmem
      rcases List.mem_singleton.mp hmem with rfl
      refine ⟨0, by simp, ?_, ?_⟩
      · simpa [evIdx] using hidx
      · simpa [evName] using hname.symm
    · rw [h2] at hmem
      rcases List.mem_cons.mp hmem with rfl | hmem2
      · refine ⟨0, by simp, ?_, ?_⟩
        · simpa [evIdx] using hidx
        · simpa [evName] using hname.symm
      · obtain ⟨k, hk, hj, hn⟩ := ih (i + 1) rs2 le2 j n pre now outc hmem2
        exact ⟨k + 1, by simpa using hk, by omega, by simpa using hn⟩

/-! ### Constructor lemmas -/

theorem foldl_initStep_not_mem (ps : List RoutedProvider) (k : String) :
    ∀ acc : RouterState, k ∉ ps.map RoutedProvider.name →
      mapGet (ps.foldl initStep acc).state k = mapGet acc.state k ∧
        mapGet (ps.foldl initStep acc).localQuota k = mapGet acc.localQuota k := by
  induction ps with
  | nil => intro acc _; exact ⟨rfl, rfl⟩
  | cons p rest ih =>
    intro acc hk
    have hk1 : k ≠ p.name := by
      intro h
      exact hk (by simp [h])
    have hk2 : k ∉ rest.map RoutedProvider.name := by
      intro h
      exact hk (by simp [h])
    obtain ⟨h1, h2⟩ := ih (initStep acc p) hk2
    refine ⟨?_, ?_⟩
    · rw [List.foldl_cons, h1]
      exact mapGet_mapSet_ne _ _ _ _ hk1
    · rw [List.foldl_cons, h2]
      exact mapGet_mapSet_ne _ _ _ _ hk1

theorem foldl_initStep_mem (ps : List RoutedProvider) (k : String) :
    ∀ acc : RouterState, k ∈ ps.map RoutedProvider.name →
      mapGet (ps.foldl initStep acc).state k = some initHealth ∧
        mapGet (ps.foldl initStep acc).localQuota k = some [] := by
  induction ps with
  | nil => intro acc h; exact absurd h (List.not_mem_nil k)
  | cons p rest ih =>
    intro acc hk
    by_cases hmem : k ∈ rest.map RoutedProvider.name
    · exact ih (initStep acc p) hmem
    · have hk1 : k = p.name := by
        rw [List.map_cons] at hk
        have hk3 : k = p.name ∨ k ∈ rest.map RoutedProvider.name := List.mem_cons.mp hk
        rcases hk3 with h | h
        · exact h
        · exact absurd h hmem
      obtain ⟨h1, h2⟩ := foldl_initStep_not_mem rest k (initStep acc p) hmem
      rw [List.foldl_cons, h1, h2]
      subst hk1
      exact ⟨mapGet_mapSet_self _ _ _, mapGet_mapSet_self _ _ _⟩

/-! ### Claim theorems -/

/-- C6: cooldown and disable deadlines are monotonically non-decreasing:
each update stores the maximum of the existing deadline and `now + ms`,
so a later failure never shortens an existing cooldown or disable
window (and neither update touches the other deadline). -/
theorem cooldown_disable_monotone (rs : RouterState) (name : ProviderName) (now ms : Int)
    (s : ProviderState) (h : mapGet rs.state name = some s) :
    (mapGet (cooldown rs name now ms).state name =
        some { s with cooldown_until_ms := max s.cooldown_until_ms (now + ms) } ∧
      s.cooldown_until_ms ≤ max s.cooldown_until_ms (now + ms)) ∧
    (mapGet (disable rs name now ms).state name =
        some { s with disabled_until_ms := max s.disabled_until_ms (now + ms) } ∧
      s.disabled_until_ms ≤ max s.disabled_until_ms (now + ms)) := by
  refine ⟨⟨?_, le_max_left _ _⟩, ⟨?_, le_max_left _ _⟩⟩
  · rw [cooldown, mapGet_updateHealth_self, h]
    rfl
  · rw [disable, mapGet_updateHealth_self, h]
    rfl

/-- Witness for C6 at a concrete state. -/
theorem cooldown_disable_monotone_witness :
    mapGet (RouterState.mk [("claude", initHealth)] []).state "claude" = some initHealth ∧
      ((mapGet (cooldown (RouterState.mk [("claude", initHealth)] []) "claude" 7 10).state
          "claude" =
        some { initHealth with cooldown_until_ms := max initHealth.cooldown_until_ms (7 + 10) } ∧
        initHealth.cooldown_until_ms ≤ max initHealth.cooldown_until_ms (7 + 10)) ∧
      (mapGet (disable (RouterState.mk [("claude", initHealth)] []) "claude" 7 10).state
          "claude" =
        some { initHealth with disabled_until_ms := max initHealth.disabled_until_ms (7 + 10) } ∧
        initHealth.disabled_until_ms ≤ max initHealth.disabled_until_ms (7 + 10))) :=
  ⟨by decide, cooldown_disable_monotone _ "claude" 7 10 initHealth (by decide)⟩

/-- C10: the constructor rejects exactly the empty provider list, and
otherwise every registered provider starts with zeroed cooldown,
disable deadline and failure counter, no recorded error, and an empty
quota timestamp list. -/
theorem mkRouter_spec (ps : List RoutedProvider) :
    ((∃ msg, mkRouter ps = .error msg) ↔ ps = []) ∧
    (∀ rs, mkRouter ps = .ok rs → ∀ p ∈ ps,
      mapGet rs.state p.name = some ⟨0, 0, 0, none⟩ ∧
      mapGet rs.localQuota p.name = some []) := by
  constructor
  · constructor
    · rintro ⟨msg, hmsg⟩
      by_contra hne
      have : ps.isEmpty = false := by
        cases ps with
        | nil => exact absurd rfl hne
        | cons a l => rfl
      rw [mkRouter, this] at hmsg
      cases hmsg
    · rintro rfl
      exact ⟨_, rfl⟩
  · intro rs hrs p hp
    have hne : ps.isEmpty = false := by
      cases ps with
      | nil => exact absurd hp (List.not_mem_nil p)
      | cons a l => rfl
    rw [mkRouter, hne] at hrs
    simp only [Bool.false_eq_true, if_false] at hrs
    cases hrs
    have hmem : p.name ∈ ps.map RoutedProvider.name := List.mem_map_of_mem _ hp
    have := foldl_initStep_mem ps p.name { state := [], localQuota := [] } hmem
    exact this

/-- Witness for C10: a singleton provider list initializes correctly. -/
theorem mkRouter_spec_witness :
    (mkRouter [{ name := "claude", cost_per_1k := none }] =
      .ok { state := [("claude", initHealth)], localQuota := [("claude", [])] }) ∧
    (mapGet (RouterState.mk [("claude", initHealth)] [("claude", [])]).state "claude" =
      some ⟨0, 0, 0, none⟩ ∧
     mapGet (RouterState.mk [("claude", initHealth)] [("claude", [])]).localQuota "claude" =
      some []) :=
  ⟨by rfl,
    (mkRouter_spec [{ name := "claude", cost_per_1k := none }]).2
      { state := [("claude", initHealth)], localQuota := [("claude", [])] } (by rfl)
      { name := "claude", cost_per_1k := none } (by decide)⟩

/-- C2: for raw errors without a structured status/retryable pair, the
classifier matches the message case-insensitively with precedence
rate-limit (429), then authorization (401), then payment (402), else no
status; `retryable` is false exactly for the authorization and payment
indicator categories; a message containing "insufficient credit" and no
status classifies as 402, non-retryable. -/
theorem toProviderError_spec (name : ProviderName) (msg : String) :
    (toProviderError name (.jsError msg) = toProviderError name (.nonError msg)) ∧
    (looksLikeRateLimit msg = true → (toProviderError name (.jsError msg)).status = some 429) ∧
    (looksLikeRateLimit msg = false → looksLikeAuth msg = true →
      (toProviderError name (.jsError msg)).status = some 401) ∧
    (looksLikeRateLimit msg = false → looksLikeAuth msg = false →
      looksLikePayment msg = true →
      (toProviderError name (.jsError msg)).status = some 402) ∧
    (looksLikeRateLimit msg = false → looksLikeAuth msg = false →
      looksLikePayment msg = false →
      (toProviderError name (.jsError msg)).status = none) ∧
    ((toProviderError name (.jsError msg)).retryable =
      !(looksLikeAuth msg || looksLikePayment msg)) ∧
    ((toProviderError "claude" (.jsError "error: Insufficient credit balance")).status =
        some 402 ∧
      (toProviderError "claude" (.jsError "error: Insufficient credit balance")).retryable =
        false) := by
  refine ⟨rfl, ?_, ?_, ?_, ?_, ?_, ?_, ?_⟩
  · intro h1
    simp [toProviderError, rawMessage, h1]
  · intro h1 h2
    simp [toProviderError, rawMessage, h1, h2]
  · intro h1 h2 h3
    simp [toProviderError, rawMessage, h1, h2, h3]
  · intro h1 h2 h3
    simp [toProviderError, rawMessage, h1, h2, h3]
  · by_cases h1 : looksLikeAuth msg = true
    · simp [toProviderError, rawMessage, h1]
    · by_cases h2 : looksLikePayment msg = true
      · simp [toProviderError, rawMessage, h2, Bool.not_eq_true _ |>.mp h1]
      · simp [toProviderError, rawMessage, Bool.not_eq_true _ |>.mp h1,
          Bool.not_eq_true _ |>.mp h2]
  · decide
  · decide

/-- Witness for C2 at a concrete rate-limit message. -/
theorem toProviderError_spec_witness :
    looksLikeRateLimit "Rate limit reached" = true ∧
      (toProviderError "claude" (.jsError "Rate limit reached")).status = some 429 :=
  ⟨by decide, (toProviderError_spec "claude" "Rate limit reached").2.1 (by decide)⟩

/-- C5: a provider is eligible iff the current time is at or past both
the disable and the cooldown deadline; an ineligible candidate is
skipped read-only (the loop recurses on the unchanged state); and every
invoked candidate satisfied both eligibility checks against the state
and clock value at the moment it was considered. -/
theorem eligibility_spec :
    (∀ (rs : RouterState) (name : ProviderName) (now : Int) (s : ProviderState),
      mapGet rs.state name = some s →
      ((isDisabled rs name now = false ∧ isInCooldown rs name now = false) ↔
        (s.disabled_until_ms ≤ now ∧ s.cooldown_until_ms ≤ now))) ∧
    (∀ (ρ : Type) (cfg : RouterConfig) (times : Nat → Int) (outcomes : Nat → InvOutcome ρ)
      (c : RoutedProvider) (rest : List RoutedProvider) (i : Nat) (rs : RouterState)
      (le : Option RawError),
      (isDisabled rs c.name (times i) || isInCooldown rs c.name (times i)) = true →
      routeLoop cfg times outcomes (c :: rest) i rs le =
        (let r := routeLoop cfg times outcomes rest (i + 1) rs le
         (r.1, r.2.1, .skipped i c.name rs (times i) :: r.2.2))) ∧
    (∀ (ρ : Type) (cfg : RouterConfig) (providers : List RoutedProvider) (tok : ℚ)
      (times : Nat → Int) (outcomes : Nat → InvOutcome ρ) (rs : RouterState) (j : Nat)
      (n : ProviderName) (pre : RouterState) (now : Int) (outc : InvOutcome ρ),
      RouteEvent.invoked j n pre now outc ∈ (analyzeData cfg providers tok times outcomes rs).2.2 →
      isDisabled pre n now = false ∧ isInCooldown pre n now = false) := by
  refine ⟨?_, ?_, ?_⟩
  · intro rs name now s h
    rw [isDisabled, isInCooldown, h]
    simp [not_lt]
  · intro ρ cfg times outcomes c rest i rs le h
    exact routeLoop_skip_step cfg times outcomes c rest i rs le h
  · intro ρ cfg providers tok times outcomes rs j n pre now outc hmem
    exact routeLoop_invoked_eligible cfg times outcomes
      (rankProviders cfg providers tok) 0 rs none j n pre now outc hmem

/-- Witness for C5 at a concrete healthy state. -/
theorem eligibility_spec_witness :
    mapGet (RouterState.mk [("claude", initHealth)] []).state "claude" = some initHealth ∧
      ((isDisabled (RouterState.mk [("claude", initHealth)] []) "claude" 5 = false ∧
        isInCooldown (RouterState.mk [("claude", initHealth)] []) "claude" 5 = false) ↔
        (initHealth.disabled_until_ms ≤ 5 ∧ initHealth.cooldown_until_ms ≤ 5)) :=
  ⟨by decide, eligibility_spec.1 (RouterState.mk [("claude", initHealth)] []) "claude" 5
    initHealth (by decide)⟩

/-- C7: when a candidate's invocation succeeds, the router returns the
result immediately with only that one invocation event, resets that
candidate's cooldown deadline and failure counter, leaves its disable
deadline and last error unchanged, and leaves every other provider's
health state and quota list untouched. -/
theorem success_frame (ρ : Type) (cfg : RouterConfig) (times : Nat → Int)
    (outcomes : Nat → InvOutcome ρ) (c : RoutedProvider) (rest : List RoutedProvider)
    (i : Nat) (rs : RouterState) (le : Option RawError) (res : ρ) (s : ProviderState)
    (hd : isDisabled rs c.name (times i) = false)
    (hc : isInCooldown rs c.name (times i) = false)
    (hq : (checkAndConsumeLocalQuota cfg rs c.name (times i)).1 = true)
    (ho : outcomes i = .success res)
    (hs : mapGet rs.state c.name = some s) :
    routeLoop cfg times outcomes (c :: rest) i rs le =
      (.ok res, markSuccess (checkAndConsumeLocalQuota cfg rs c.name (times i)).2 c.name,
        [.invoked i c.name rs (times i) (.success res)]) ∧
    mapGet (markSuccess (checkAndConsumeLocalQuota cfg rs c.name (times i)).2 c.name).state
        c.name = some { s with consecutive_failures := 0, cooldown_until_ms := 0 } ∧
    (∀ n2, n2 ≠ c.name →
      mapGet (markSuccess (checkAndConsumeLocalQuota cfg rs c.name (times i)).2 c.name).state
          n2 = mapGet rs.state n2 ∧
      mapGet (markSuccess (checkAndConsumeLocalQuota cfg rs c.name (times i)).2
          c.name).localQuota n2 = mapGet rs.localQuota n2) := by
  refine ⟨routeLoop_success_step cfg times outcomes c rest i rs le res hd hc hq ho, ?_, ?_⟩
  · rw [markSuccess, mapGet_updateHealth_self]
    have h2 : mapGet (checkAndConsumeLocalQuota cfg rs c.name (times i)).2.state c.name =
        some s := hs
    rw [h2]
    rfl
  · intro n2 hn2
    constructor
    · rw [markSuccess, mapGet_updateHealth_ne _ _ _ _ hn2]
      rfl
    · rw [markSuccess, updateHealth_localQuota]
      exact mapGet_mapSet_ne _ _ _ _ hn2

/-- Witness for C7 on a concrete two-provider state. -/
theorem success_frame_witness :
    (routeLoop defaultConfig (fun _ => 3) (fun _ => InvOutcome.success (42 : Nat))
        [{ name := "claude", cost_per_1k := none }] 0
        (RouterState.mk [("claude", ProviderState.mk 2 4 0 none), ("openai", initHealth)]
          [("claude", []), ("openai", [])]) none =
      (.ok 42, markSuccess (checkAndConsumeLocalQuota defaultConfig
        (RouterState.mk [("claude", ProviderState.mk 2 4 0 none), ("openai", initHealth)]
          [("claude", []), ("openai", [])]) "claude" 3).2 "claude",
        [.invoked 0 "claude"
          (RouterState.mk [("claude", ProviderState.mk 2 4 0 none), ("openai", initHealth)]
            [("claude", []), ("openai", [])]) 3 (.success 42)])) ∧
    mapGet (markSuccess (checkAndConsumeLocalQuota defaultConfig
        (RouterState.mk [("claude", ProviderState.mk 2 4 0 none), ("openai", initHealth)]
          [("claude", []), ("openai", [])]) "claude" 3).2 "claude").state "claude" =
      some { ProviderState.mk 2 4 0 none with consecutive_failures := 0, cooldown_until_ms := 0 } ∧
    (∀ n2, n2 ≠ "claude" →
      mapGet (markSuccess (checkAndConsumeLocalQuota defaultConfig
          (RouterState.mk [("claude", ProviderState.mk 2 4 0 none), ("openai", initHealth)]
            [("claude", []), ("openai", [])]) "claude" 3).2 "claude").state n2 =
        mapGet (RouterState.mk [("claude", ProviderState.mk 2 4 0 none), ("openai", initHealth)]
          [("claude", []), ("openai", [])]).state n2 ∧
      mapGet (markSuccess (checkAndConsumeLocalQuota defaultConfig
          (RouterState.mk [("claude", ProviderState.mk 2 4 0 none), ("openai", initHealth)]
            [("claude", []), ("openai", [])]) "claude" 3).2 "claude").localQuota n2 =
        mapGet (RouterState.mk [("claude", ProviderState.mk 2 4 0 none), ("openai", initHealth)]
          [("claude", []), ("openai", [])]).localQuota n2) :=
  success_frame Nat defaultConfig (fun _ => 3) (fun _ => InvOutcome.success 42)
    { name := "claude", cost_per_1k := none } [] 0
    (RouterState.mk [("claude", ProviderState.mk 2 4 0 none), ("openai", initHealth)]
      [("claude", []), ("openai", [])]) none 42 (ProviderState.mk 2 4 0 none)
    (by decide) (by decide) (by decide) rfl (by decide)

/-- C3: each quota check prunes timestamps older than `now - W`,
rejects without appending when at least `N` remain and appends `now`
and accepts otherwise, so that within any window of length `W` exactly
`N` admissions succeed; a quota-refused candidate gets the rate-limit
cooldown applied (failure counter and disable deadline untouched) and
the loop moves on without ever invoking that candidate position. -/
theorem quota_spec :
    (∀ (maxN W : Int) (arr : List Int) (now : Int),
      (((arr.filter fun t => decide (now - W ≤ t)).length : Int) ≥ maxN →
        tryConsume maxN W arr now = (false, arr.filter fun t => decide (now - W ≤ t))) ∧
      (((arr.filter fun t => decide (now - W ≤ t)).length : Int) < maxN →
        tryConsume maxN W arr now =
          (true, (arr.filter fun t => decide (now - W ≤ t)) ++ [now]))) ∧
    (∀ (maxN W : Int) (calls arr : List Int) (t0 : Int),
      (∀ a ∈ arr, t0 ≤ a) → (∀ t ∈ calls, t0 ≤ t ∧ t < t0 + W) →
      (quotaFold maxN W arr calls).1 = min calls.length (maxN - arr.length).toNat) ∧
    (∀ (ρ : Type) (cfg : RouterConfig) (times : Nat → Int) (outcomes : Nat → InvOutcome ρ)
      (c : RoutedProvider) (rest : List RoutedProvider) (i : Nat) (rs : RouterState)
      (le : Option RawError),
      isDisabled rs c.name (times i) = false →
      isInCooldown rs c.name (times i) = false →
      (checkAndConsumeLocalQuota cfg rs c.name (times i)).1 = false →
      (routeLoop cfg times outcomes (c :: rest) i rs le =
        (let rs2 := cooldown (checkAndConsumeLocalQuota cfg rs c.name (times i)).2 c.name
          (times i) cfg.rateLimitCooldownMs
         let r := routeLoop cfg times outcomes rest (i + 1) rs2 le
         (r.1, r.2.1, .quotaRejected i c.name rs (times i) :: r.2.2))) ∧
      (∀ s, mapGet rs.state c.name = some s →
        mapGet (cooldown (checkAndConsumeLocalQuota cfg rs c.name (times i)).2 c.name
            (times i) cfg.rateLimitCooldownMs).state c.name =
          some { s with cooldown_until_ms := max s.cooldown_until_ms (times i + cfg.rateLimitCooldownMs) }) ∧
      (∀ (n : ProviderName) (pre : RouterState) (now2 : Int) (outc : InvOutcome ρ),
        RouteEvent.invoked i n pre now2 outc ∉
          (routeLoop cfg times outcomes (c :: rest) i rs le).2.2)) := by
  refine ⟨?_, quotaFold_count, ?_⟩
  · intro maxN W arr now
    constructor
    · intro h
      simp only [tryConsume]
      rw [if_pos h]
    · intro h
      simp only [tryConsume]
      rw [if_neg (not_le.mpr h)]
  · intro ρ cfg times outcomes c rest i rs le hd hc hq
    refine ⟨routeLoop_quota_step cfg times outcomes c rest i rs le hd hc hq, ?_, ?_⟩
    · intro s hs
      rw [cooldown, mapGet_updateHealth_self]
      have h2 : mapGet (checkAndConsumeLocalQuota cfg rs c.name (times i)).2.state c.name =
          some s := hs
      rw [h2]
      rfl
    · intro n pre now2 outc hmem
      rw [routeLoop_quota_step cfg times outcomes c rest i rs le hd hc hq] at hmem
      simp only at hmem
      rcases List.mem_cons.mp hmem with heq | hmem2
      · cases heq
      · have hb := (routeLoop_trace_bound cfg times outcomes rest (i + 1)
          (cooldown (checkAndConsumeLocalQuota cfg rs c.name (times i)).2 c.name (times i)
            cfg.rateLimitCooldownMs) le).1 _ hmem2
        simp [evIdx] at hb

/-- Witness for C3: with a window of 10 and a cap of 2, three calls at
times 0, 1, 2 admit exactly 2. -/
theorem quota_spec_witness :
    (∀ a ∈ ([] : List Int), (0 : Int) ≤ a) ∧
    (∀ t ∈ ([0, 1, 2] : List Int), (0 : Int) ≤ t ∧ t < 0 + 10) ∧
    (quotaFold 2 10 [] [0, 1, 2]).1 = min ([0, 1, 2] : List Int).length ((2 : Int) -
      ([] : List Int).length).toNat :=
  ⟨by decide, by decide, quota_spec.2.1 2 10 [0, 1, 2] [] 0 (by decide) (by decide)⟩

/-- C8 counterexample: a provider that throws a pre-classified
non-retryable error with no status aborts the loop with the classified
error recorded in `last_error`, but its consecutive-failure counter is
left at 0 — it is not incremented before (or after) the branch. -/
theorem failure_counter_counterexample :
    (analyzeData defaultConfig [⟨"claude", none⟩] 100 (fun _ => 0)
      (fun _ => InvOutcome.failure (ρ := Nat)
        (.providerError ⟨"claude", none, false, "schema validation failed"⟩))
      (RouterState.mk [("claude", initHealth)] [("claude", [])])).1 =
        .thrownMapped ⟨"claude", none, false, "schema validation failed"⟩ ∧
    mapGet (analyzeData defaultConfig [⟨"claude", none⟩] 100 (fun _ => 0)
      (fun _ => InvOutcome.failure (ρ := Nat)
        (.providerError ⟨"claude", none, false, "schema validation failed"⟩))
      (RouterState.mk [("claude", initHealth)] [("claude", [])])).2.1.state "claude" =
        some ⟨0, 0, 0, some ⟨none, "schema validation failed", 0⟩⟩ := by
  decide

/-- C8 amended: on every failed invocation the router classifies the
error and records it in `last_error` before branching; each of the four
failover branches additionally applies its cooldown or disable and then
increments the consecutive-failure counter; on the non-retryable abort
branch the classified error is thrown with the counter unchanged. -/
theorem failure_handling_amended (ρ : Type) (cfg : RouterConfig) (times : Nat → Int)
    (outcomes : Nat → InvOutcome ρ) (c : RoutedProvider) (rest : List RoutedProvider)
    (i : Nat) (rs : RouterState) (le : Option RawError) (e : RawError)
    (hd : isDisabled rs c.name (times i) = false)
    (hc : isInCooldown rs c.name (times i) = false)
    (hq : (checkAndConsumeLocalQuota cfg rs c.name (times i)).1 = true)
    (ho : outcomes i = .failure e) :
    (∀ s, mapGet rs.state c.name = some s →
      mapGet (recordError (checkAndConsumeLocalQuota cfg rs c.name (times i)).2 c.name
          (toProviderError c.name e) (times i)).state c.name =
        some { s with last_error := some ⟨(toProviderError c.name e).status, (toProviderError c.name e).message, times i⟩ }) ∧
    ((toProviderError c.name e).status = some 401 ∨ (toProviderError c.name e).status = some 403 →
      routeLoop cfg times outcomes (c :: rest) i rs le =
        (let rs2 := recordError (checkAndConsumeLocalQuota cfg rs c.name (times i)).2 c.name
          (toProviderError c.name e) (times i)
         let rs3 := markFailure (disable rs2 c.name (times i) cfg.authDisableMs) c.name
         let r := routeLoop cfg times outcomes rest (i + 1) rs3 (some e)
         (r.1, r.2.1, .invoked i c.name rs (times i) (.failure e) :: r.2.2))) ∧
    (¬((toProviderError c.name e).status = some 401 ∨ (toProviderError c.name e).status = some 403) →
      (toProviderError c.name e).status = some 402 →
      routeLoop cfg times outcomes (c :: rest) i rs le =
        (let rs2 := recordError (checkAndConsumeLocalQuota cfg rs c.name (times i)).2 c.name
          (toProviderError c.name e) (times i)
         let rs3 := markFailure (disable rs2 c.name (times i) cfg.paymentDisableMs) c.name
         let r := routeLoop cfg times outcomes rest (i + 1) rs3 (some e)
         (r.1, r.2.1, .invoked i c.name rs (times i) (.failure e) :: r.2.2))) ∧
    (¬((toProviderError c.name e).status = some 401 ∨ (toProviderError c.name e).status = some 403) →
      ¬(toProviderError c.name e).status = some 402 →
      (toProviderError c.name e).status = some 429 →
      routeLoop cfg times outcomes (c :: rest) i rs le =
        (let rs2 := recordError (checkAndConsumeLocalQuota cfg rs c.name (times i)).2 c.name
          (toProviderError c.name e) (times i)
         let rs3 := markFailure (cooldown rs2 c.name (times i) cfg.rateLimitCooldownMs) c.name
         let r := routeLoop cfg times outcomes rest (i + 1) rs3 (some e)
         (r.1, r.2.1, .invoked i c.name rs (times i) (.failure e) :: r.2.2))) ∧
    (¬((toProviderError c.name e).status = some 401 ∨ (toProviderError c.name e).status = some 403) →
      ¬(toProviderError c.name e).status = some 402 →
      ¬(toProviderError c.name e).status = some 429 →
      (toProviderError c.name e).retryable = true →
      routeLoop cfg times outcomes (c :: rest) i rs le =
        (let rs2 := recordError (checkAndConsumeLocalQuota cfg rs c.name (times i)).2 c.name
          (toProviderError c.name e) (times i)
         let rs3 := markFailure (cooldown rs2 c.name (times i) cfg.errorCooldownMs) c.name
         let r := routeLoop cfg times outcomes rest (i + 1) rs3 (some e)
         (r.1, r.2.1, .invoked i c.name rs (times i) (.failure e) :: r.2.2))) ∧
    (¬((toProviderError c.name e).status = some 401 ∨ (toProviderError c.name e).status = some 403) →
      ¬(toProviderError c.name e).status = some 402 →
      ¬(toProviderError c.name e).status = some 429 →
      (toProviderError c.name e).retryable = false →
      routeLoop cfg times outcomes (c :: rest) i rs le =
        (.thrownMapped (toProviderError c.name e),
          recordError (checkAndConsumeLocalQuota cfg rs c.name (times i)).2 c.name
            (toProviderError c.name e) (times i),
          [.invoked i c.name rs (times i) (.failure e)]) ∧
      (∀ s, mapGet rs.state c.name = some s →
        (mapGet (recordError (checkAndConsumeLocalQuota cfg rs c.name (times i)).2 c.name
            (toProviderError c.name e) (times i)).state c.name).map
          ProviderState.consecutive_failures = some s.consecutive_failures)) ∧
    (∀ (rs4 : RouterState) (n : ProviderName) (s : ProviderState),
      mapGet rs4.state n = some s →
      mapGet (markFailure rs4 n).state n =
        some { s with consecutive_failures := s.consecutive_failures + 1 }) := by
  refine ⟨?_, ?_, ?_, ?_, ?_, ?_, ?_⟩
  · intro s hs
    rw [recordError, mapGet_updateHealth_self]
    have h2 : mapGet (checkAndConsumeLocalQuota cfg rs c.name (times i)).2.state c.name =
        some s := hs
    rw [h2]
    rfl
  · intro hst
    exact routeLoop_fail_auth_step cfg times outcomes c rest i rs le e hd hc hq ho hst
  · intro hst hst2
    exact routeLoop_fail_payment_step cfg times outcomes c rest i rs le e hd hc hq ho hst hst2
  · intro hst hst2 hst3
    exact routeLoop_fail_rateLimit_step cfg times outcomes c rest i rs le e hd hc hq ho hst
      hst2 hst3
  · intro hst hst2 hst3 hr
    exact routeLoop_fail_retryable_step cfg times outcomes c rest i rs le e hd hc hq ho hst
      hst2 hst3 hr
  · intro hst hst2 hst3 hr
    refine ⟨routeLoop_fail_abort_step cfg times outcomes c rest i rs le e hd hc hq ho hst
      hst2 hst3 hr, ?_⟩
    intro s hs
    rw [recordError, mapGet_updateHealth_self]
    have h2 : mapGet (checkAndConsumeLocalQuota cfg rs c.name (times i)).2.state c.name =
        some s := hs
    rw [h2]
    rfl
  · intro rs4 n s hs
    rw [markFailure, mapGet_updateHealth_self, hs]
    rfl

/-- Witness for C8 amended: the failure counter increments by one on a
concrete health record. -/
theorem failure_handling_amended_witness :
    mapGet (markFailure (RouterState.mk [("claude", ProviderState.mk 0 4 0 none)] [])
        "claude").state "claude" =
      some (ProviderState.mk 0 (4 + 1) 0 none) :=
  (failure_handling_amended Nat defaultConfig (fun _ => 0)
    (fun _ => InvOutcome.failure (.jsError "boom")) ⟨"claude", none⟩ [] 0
    (RouterState.mk [("claude", initHealth)] [("claude", [])]) none (.jsError "boom")
    (by decide) (by decide) (by decide) rfl).2.2.2.2.2.2
    (RouterState.mk [("claude", ProviderState.mk 0 4 0 none)] []) "claude"
    (ProviderState.mk 0 4 0 none) (by decide)

/-! ### Ranking lemmas -/

theorem filter_orderedInsert_cost (tok q : ℚ) (a : RoutedProvider) (l : List RoutedProvider) :
    (List.orderedInsert (costLE tok) a l).filter
        (fun p => decide (estimateCostUsd p tok = q)) =
      if estimateCostUsd a tok = q then
        a :: l.filter (fun p => decide (estimateCostUsd p tok = q))
      else l.filter (fun p => decide (estimateCostUsd p tok = q)) := by
  induction l with
  | nil =>
    rw [List.orderedInsert_nil]
    by_cases haq : estimateCostUsd a tok = q
    · simp [List.filter_cons, haq]
    · simp [List.filter_cons, haq]
  | cons b l2 ih =>
    rw [List.orderedInsert]
    by_cases hab : costLE tok a b
    · rw [if_pos hab]
      by_cases haq : estimateCostUsd a tok = q
      · simp [List.filter_cons, haq]
      · simp [List.filter_cons, haq]
    · rw [if_neg hab]
      have hlt : estimateCostUsd b tok < estimateCostUsd a tok := not_le.mp hab
      by_cases haq : estimateCostUsd a tok = q
      · have hbq : ¬(estimateCostUsd b tok = q) := by
          intro hbqe
          rw [haq] at hlt
          rw [hbqe] at hlt
          exact lt_irrefl q hlt
        simp [List.filter_cons, haq, hbq, ih]
      · simp [List.filter_cons, haq, ih]

theorem filter_insertionSort_cost (tok q : ℚ) (l : List RoutedProvider) :
    (List.insertionSort (costLE tok) l).filter
        (fun p => decide (estimateCostUsd p tok = q)) =
      l.filter (fun p => decide (estimateCostUsd p tok = q)) := by
  induction l with
  | nil => rfl
  | cons a l2 ih =>
    rw [List.insertionSort, filter_orderedInsert_cost, ih]
    by_cases haq : estimateCostUsd a tok = q
    · simp [List.filter_cons, haq]
    · simp [List.filter_cons, haq]

/-- C4: under `fixed_order` the ranking is the registration order
unchanged; otherwise (the `cost_then_failover` default) it is a
permutation of the registration list, sorted ascending by
`estimatedCostUsd = (tokens/1000) * costPer1k`, with equal-cost
candidates kept in registration order (stable sort); for costs
[0.0002, 0.0001, 0.00025] the attempt order is [second, first, third]. -/
theorem rankProviders_spec :
    (∀ (cfg : RouterConfig) (providers : List RoutedProvider) (tok : ℚ),
      effectiveStrategy cfg.strategyRaw = "fixed_order" →
      rankProviders cfg providers tok = providers) ∧
    (∀ (cfg : RouterConfig) (providers : List RoutedProvider) (tok : ℚ),
      effectiveStrategy cfg.strategyRaw ≠ "fixed_order" →
      (rankProviders cfg providers tok).Perm providers ∧
      (rankProviders cfg providers tok).Sorted (costLE tok) ∧
      (∀ q : ℚ, (rankProviders cfg providers tok).filter
          (fun p => decide (estimateCostUsd p tok = q)) =
        providers.filter (fun p => decide (estimateCostUsd p tok = q)))) ∧
    (rankProviders defaultConfig
        [⟨"claude", some (2 / 10000)⟩, ⟨"openai", some (1 / 10000)⟩,
          ⟨"deepseek", some (25 / 100000)⟩] 1000 =
      [⟨"openai", some (1 / 10000)⟩, ⟨"claude", some (2 / 10000)⟩,
        ⟨"deepseek", some (25 / 100000)⟩]) := by
  refine ⟨?_, ?_, ?_⟩
  · intro cfg providers tok h
    rw [rankProviders, if_pos h]
  · intro cfg providers tok h
    rw [rankProviders, if_neg h]
    haveI : IsTotal RoutedProvider (costLE tok) := ⟨fun a b => le_total _ _⟩
    haveI : IsTrans RoutedProvider (costLE tok) := ⟨fun a b c => le_trans⟩
    exact ⟨List.perm_insertionSort _ _, List.sorted_insertionSort _ _,
      fun q => filter_insertionSort_cost tok q providers⟩
  · rw [rankProviders, if_neg (by decide)]
    norm_num [List.insertionSort, List.orderedInsert, costLE, estimateCostUsd]

/-- Witness for C4: a `fixed_order` configuration returns the
registration order. -/
theorem rankProviders_spec_witness :
    effectiveStrategy "fixed_order" = "fixed_order" ∧
      rankProviders { defaultConfig with strategyRaw := "fixed_order" }
        [⟨"claude", some 3⟩, ⟨"openai", some 1⟩] 5 =
        [⟨"claude", some 3⟩, ⟨"openai", some 1⟩] :=
  ⟨by decide, rankProviders_spec.1 { defaultConfig with strategyRaw := "fixed_order" }
    [⟨"claude", some 3⟩, ⟨"openai", some 1⟩] 5 (by decide)⟩

/-- Test of whether an event is an invocation of provider `n`. -/
def isInvokedOf (n : ProviderName) : RouteEvent ρ → Bool
  | .invoked _ n2 _ _ _ => decide (n2 = n)
  | _ => false

/-- C9 counterexample: with provider "claude" registered twice (around
"openai") under `fixed_order`, all three failing with a transient
error, and the clock past the 15s error cooldown when the third
candidate is considered, `route` invokes "claude" twice in one
invocation. -/
theorem same_provider_twice_counterexample :
    ((analyzeData { defaultConfig with strategyRaw := "fixed_order" }
        [⟨"claude", none⟩, ⟨"openai", none⟩, ⟨"claude", none⟩] 0
        (fun i => if i = 2 then 20000 else 0)
        (fun _ => InvOutcome.failure (ρ := Nat) (.jsError "boom"))
        (RouterState.mk [("claude", initHealth), ("openai", initHealth)]
          [("claude", []), ("openai", [])])).2.2.filter (isInvokedOf "claude")).length = 2 := by
  decide

/-- C9 amended: within one `route` invocation, each candidate position
of the ranked list produces at most one event (event indices strictly
increase along the trace), hence at most one provider call per
candidate entry; and when the registered provider names are pairwise
distinct, the same provider is never invoked twice. -/
theorem per_candidate_single_attempt (ρ : Type) (cfg : RouterConfig)
    (providers : List RoutedProvider) (tok : ℚ) (times : Nat → Int)
    (outcomes : Nat → InvOutcome ρ) (rs : RouterState) :
    List.Pairwise (fun a b => evIdx a < evIdx b)
      (analyzeData cfg providers tok times outcomes rs).2.2 ∧
    ((providers.map RoutedProvider.name).Nodup →
      ∀ n : ProviderName,
        ((analyzeData cfg providers tok times outcomes rs).2.2.filter
          (isInvokedOf n)).length ≤ 1) := by
  have hp : List.Pairwise (fun a b => evIdx a < evIdx b)
      (analyzeData cfg providers tok times outcomes rs).2.2 :=
    (routeLoop_trace_bound cfg times outcomes (rankProviders cfg providers tok) 0 rs none).2
  refine ⟨hp, ?_⟩
  intro hnodup n
  have hnodupRank : ((rankProviders cfg providers tok).map RoutedProvider.name).Nodup := by
    rw [rankProviders]
    split
    · exact hnodup
    · exact (List.Perm.nodup_iff ((List.perm_insertionSort _ providers).map _)).mpr hnodup
  by_contra hlen
  push_neg at hlen
  have hpf : List.Pairwise (fun a b => evIdx a < evIdx b)
      ((analyzeData cfg providers tok times outcomes rs).2.2.filter (isInvokedOf n)) :=
    List.Pairwise.sublist (List.filter_sublist _) hp
  rcases hfl : (analyzeData cfg providers tok times outcomes rs).2.2.filter (isInvokedOf n) with
    _ | ⟨e1, _ | ⟨e2, t⟩⟩
  · rw [hfl] at hlen
    simp at hlen
  · rw [hfl] at hlen
    simp at hlen
  · have hm1 : e1 ∈ (analyzeData cfg providers tok times outcomes rs).2.2.filter
        (isInvokedOf n) := by
      rw [hfl]
      exact List.mem_cons_self _ _
    have hm2 : e2 ∈ (analyzeData cfg providers tok times outcomes rs).2.2.filter
        (isInvokedOf n) := by
      rw [hfl]
      exact List.mem_cons_of_mem _ (List.mem_cons_self _ _)
    have hb1 : isInvokedOf n e1 = true := List.of_mem_filter hm1
    have hb2 : isInvokedOf n e2 = true := List.of_mem_filter hm2
    have ht1 : e1 ∈ (analyzeData cfg providers tok times outcomes rs).2.2 :=
      List.mem_of_mem_filter hm1
    have ht2 : e2 ∈ (analyzeData cfg providers tok times outcomes rs).2.2 :=
      List.mem_of_mem_filter hm2
    have hlt : evIdx e1 < evIdx e2 := by
      rw [hfl] at hpf
      exact (List.pairwise_cons.mp hpf).1 e2 (List.mem_cons_self _ _)
    obtain ⟨j1, pre1, now1, outc1, he1⟩ : ∃ j pre now outc,
        e1 = RouteEvent.invoked j n pre now outc := by
      cases e1 with
      | skipped j n2 pre now => simp [isInvokedOf] at hb1
      | quotaRejected j n2 pre now => simp [isInvokedOf] at hb1
      | invoked j n2 pre now outc =>
        have : n2 = n := of_decide_eq_true hb1
        exact ⟨j, pre, now, outc, by rw [this]⟩
    obtain ⟨j2, pre2, now2, outc2, he2⟩ : ∃ j pre now outc,
        e2 = RouteEvent.invoked j n pre now outc := by
      cases e2 with
      | skipped j n2 pre now => simp [isInvokedOf] at hb2
      | quotaRejected j n2 pre now => simp [isInvokedOf] at hb2
      | invoked j n2 pre now outc =>
        have : n2 = n := of_decide_eq_true hb2
        exact ⟨j, pre, now, outc, by rw [this]⟩
    subst he1 he2
    obtain ⟨k1, hk1, hj1, hn1⟩ := routeLoop_invoked_name cfg times outcomes
      (rankProviders cfg providers tok) 0 rs none j1 n pre1 now1 outc1 ht1
    obtain ⟨k2, hk2, hj2, hn2⟩ := routeLoop_invoked_name cfg times outcomes
      (rankProviders cfg providers tok) 0 rs none j2 n pre2 now2 outc2 ht2
    have hinj := List.nodup_iff_injective_get.mp hnodupRank
    have hmk1 : k1 < ((rankProviders cfg providers tok).map RoutedProvider.name).length := by
      simpa using hk1
    have hmk2 : k2 < ((rankProviders cfg providers tok).map RoutedProvider.name).length := by
      simpa using hk2
    have hgets : ((rankProviders cfg providers tok).map RoutedProvider.name).get ⟨k1, hmk1⟩ =
        ((rankProviders cfg providers tok).map RoutedProvider.name).get ⟨k2, hmk2⟩ := by
      simp only [List.get_eq_getElem, List.getElem_map]
      have hg1 : (rankProviders cfg providers tok)[k1].name = n := by
        simpa [List.get_eq_getElem] using hn1
      have hg2 : (rankProviders cfg providers tok)[k2].name = n := by
        simpa [List.get_eq_getElem] using hn2
      rw [hg1, hg2]
    have hfin := hinj hgets
    have hk12 : k1 = k2 := congrArg Fin.val hfin
    simp [evIdx] at hlt
    omega

/-- Witness for C9 amended on a concrete duplicate-free registration. -/
theorem per_candidate_single_attempt_witness :
    (([⟨"claude", none⟩, ⟨"openai", none⟩] : List RoutedProvider).map
      RoutedProvider.name).Nodup ∧
    ((analyzeData { defaultConfig with strategyRaw := "fixed_order" }
        [⟨"claude", none⟩, ⟨"openai", none⟩] 0 (fun _ => 0)
        (fun _ => InvOutcome.failure (ρ := Nat) (.jsError "boom"))
        (RouterState.mk [("claude", initHealth), ("openai", initHealth)]
          [("claude", []), ("openai", [])])).2.2.filter (isInvokedOf "claude")).length ≤ 1 :=
  ⟨by decide,
    (per_candidate_single_attempt Nat { defaultConfig with strategyRaw := "fixed_order" }
      [⟨"claude", none⟩, ⟨"openai", none⟩] 0 (fun _ => 0)
      (fun _ => InvOutcome.failure (.jsError "boom"))
      (RouterState.mk [("claude", initHealth), ("openai", initHealth)]
        [("claude", []), ("openai", [])])).2 (by decide) "claude"⟩

/-- C1 counterexample: a single provider failing with a 401-classified
error is disabled for the auth-disable duration, but `route` rethrows
that provider's own raw error (`throw lastErr`), not a distinct
"all providers failed" error. -/
theorem all_failed_counterexample :
    (analyzeData defaultConfig [⟨"claude", none⟩] 100 (fun _ => 0)
      (fun _ => InvOutcome.failure (ρ := Nat) (.jsError "unauthorized"))
      (RouterState.mk [("claude", initHealth)] [("claude", [])])).1 =
        .thrownLast (.jsError "unauthorized") ∧
    (analyzeData defaultConfig [⟨"claude", none⟩] 100 (fun _ => 0)
      (fun _ => InvOutcome.failure (ρ := Nat) (.jsError "unauthorized"))
      (RouterState.mk [("claude", initHealth)] [("claude", [])])).1 ≠ .thrownAllFailed ∧
    (toProviderError "claude" (.jsError "unauthorized")).status = some 401 ∧
    mapGet (analyzeData defaultConfig [⟨"claude", none⟩] 100 (fun _ => 0)
      (fun _ => InvOutcome.failure (ρ := Nat) (.jsError "unauthorized"))
      (RouterState.mk [("claude", initHealth)] [("claude", [])])).2.1.state "claude" =
        some ⟨0, 1, 86400000, some ⟨some 401, "unauthorized", 0⟩⟩ := by
  decide

/-- C1 amended: when the candidate loop exhausts, the distinct
"All AI providers failed" error is thrown only when no failure was
recorded or the recorded value is not an `Error` instance; a recorded
`Error` is rethrown as is. In the single-provider 401 scenario the
provider is disabled for the auth-disable duration and its own raw
error is rethrown. -/
theorem route_exhausted_amended :
    (∀ (ρ : Type) (cfg : RouterConfig) (times : Nat → Int) (outcomes : Nat → InvOutcome ρ)
      (i : Nat) (rs : RouterState),
      (routeLoop cfg times outcomes [] i rs none).1 = .thrownAllFailed ∧
      (∀ e : RawError,
        (isErrorInst e = true →
          (routeLoop cfg times outcomes [] i rs (some e)).1 = .thrownLast e) ∧
        (isErrorInst e = false →
          (routeLoop cfg times outcomes [] i rs (some e)).1 = .thrownAllFailed))) ∧
    (∀ (ρ : Type) (cfg : RouterConfig) (p : RoutedProvider) (m : String) (tok : ℚ)
      (times : Nat → Int) (outcomes : Nat → InvOutcome ρ),
      looksLikeAuth m = true → looksLikeRateLimit m = false →
      outcomes 0 = .failure (.jsError m) → 0 ≤ times 0 → 1 ≤ cfg.localQuotaMax →
      analyzeData cfg [p] tok times outcomes
          (RouterState.mk [(p.name, initHealth)] [(p.name, [])]) =
        (.thrownLast (.jsError m),
          RouterState.mk
            [(p.name, ⟨0, 1, max 0 (times 0 + cfg.authDisableMs), some ⟨some 401, m, times 0⟩⟩)]
            [(p.name, [times 0])],
          [.invoked 0 p.name (RouterState.mk [(p.name, initHealth)] [(p.name, [])]) (times 0)
            (.failure (.jsError m))]) ∧
      (RouteResult.thrownLast (ρ := ρ) (.jsError m)) ≠ .thrownAllFailed) := by
  constructor
  · intro ρ cfg times outcomes i rs
    refine ⟨rfl, ?_⟩
    intro e
    constructor
    · intro h
      simp [routeLoop, h]
    · intro h
      simp [routeLoop, h]
  · intro ρ cfg p m tok times outcomes hA hR ho ht hquota
    have hrank : rankProviders cfg [p] tok = [p] := by
      rw [rankProviders]
      split
      · rfl
      · simp [List.insertionSort, List.orderedInsert]
    have hget : mapGet [(p.name, initHealth)] p.name = some initHealth := by
      simp [mapGet]
    have hd : isDisabled (RouterState.mk [(p.name, initHealth)] [(p.name, [])]) p.name
        (times 0) = false := by
      rw [isDisabled]
      simp only [hget]
      simp [initHealth]
      omega
    have hc : isInCooldown (RouterState.mk [(p.name, initHealth)] [(p.name, [])]) p.name
        (times 0) = false := by
      rw [isInCooldown]
      simp only [hget]
      simp [initHealth]
      omega
    have hcond : ¬(cfg.localQuotaMax ≤ (0 : Int)) := by omega
    have hq : (checkAndConsumeLocalQuota cfg
        (RouterState.mk [(p.name, initHealth)] [(p.name, [])]) p.name (times 0)).1 = true := by
      simp [checkAndConsumeLocalQuota, tryConsume, mapGet, hcond]
    have hst : (toProviderError p.name (.jsError m)).status = some 401 := by
      simp [toProviderError, rawMessage, hA, hR]
    constructor
    · rw [analyzeData, hrank]
      rw [routeLoop_fail_auth_step cfg times outcomes p []
        0 (RouterState.mk [(p.name, initHealth)] [(p.name, [])]) none (.jsError m) hd hc hq ho
        (Or.inl hst)]
      simp only [routeLoop, isErrorInst]
      refine Prod.ext ?_ (Prod.ext ?_ ?_)
      · rfl
      · simp only [checkAndConsumeLocalQuota, tryConsume, mapGet, recordError, disable,
          markFailure, updateHealth, mapSet]
        simp [toProviderError, rawMessage, hA, hR, initHealth, hcond]
      · rfl
    · intro h
      exact RouteResult.noConfusion h

/-- Witness for C1 amended in the concrete single-provider scenario. -/
theorem route_exhausted_amended_witness :
    looksLikeAuth "unauthorized" = true ∧ looksLikeRateLimit "unauthorized" = false ∧
    (0 : Int) ≤ 0 ∧ (1 : Int) ≤ defaultConfig.localQuotaMax ∧
    (analyzeData defaultConfig [⟨"claude", none⟩] 100 (fun _ => 0)
        (fun _ => InvOutcome.failure (ρ := Nat) (.jsError "unauthorized"))
        (RouterState.mk [("claude", initHealth)] [("claude", [])]) =
      (.thrownLast (.jsError "unauthorized"),
        RouterState.mk
          [("claude", ⟨0, 1, max 0 (0 + defaultConfig.authDisableMs),
            some ⟨some 401, "unauthorized", 0⟩⟩)]
          [("claude", [0])],
        [.invoked 0 "claude" (RouterState.mk [("claude", initHealth)] [("claude", [])]) 0
          (.failure (.jsError "unauthorized"))]) ∧
      (RouteResult.thrownLast (ρ := Nat) (.jsError "unauthorized")) ≠ .thrownAllFailed) :=
  ⟨by decide, by decide, by decide, by decide,
    route_exhausted_amended.2 Nat defaultConfig ⟨"claude", none⟩ "unauthorized" 100
      (fun _ => 0) (fun _ => InvOutcome.failure (.jsError "unauthorized"))
      (by decide) (by decide) rfl (by decide) (by decide)⟩
